import Mathlib

/-!
Verification of the golazy deferred-cache-cell library.

The Go sources are shallowly embedded as pure Lean functions:

* `LazyFunc Ctx Arg E T` models `LazyFunc[T] = func(ctx context.Context,
  args ...any) (T, error)`; an error is `Option E` with `none` standing for
  Go's `nil` error.
* `withLoader Ctx Arg E T` models the struct `withLoader[T]` from
  `with_loader.go` (the mutex field is not represented: the lock serializes
  all operations, so a run of the cell is modelled as a sequence of atomic
  `Value`/`Clear` steps).
* Wall-clock time is passed explicitly: `Value` receives the current
  timestamp `now : Int`; `time.Since(t)` becomes `now - t` and
  `time.Duration` an `Int`.
* `Value` returns a `ValueOut` record holding the updated cell, the returned
  `(value, error)` pair, and an `invoked` trace: `some (ctx, args)` exactly
  when the loader was called in that step, with the context and argument
  list it received.
-/

namespace Golazy

/-- Model of `LazyFunc[T] = func(ctx context.Context, args ...any) (T, error)`.
`Ctx` models `context.Context`, `Arg` the opaque `any` arguments, and the
error result is `Option E` (`none` = nil error). -/
def LazyFunc (Ctx Arg E T : Type) : Type :=
  Ctx → List Arg → T × Option E

/-- Model of the struct `withLoader[T]` in `with_loader.go`: cached `value`,
constructor `args`, the `loader`, the `loaded` flag, the TTL configuration
`withTTL`/`ttl`, and the optional timestamp `lastLoad` (`*time.Time` becomes
`Option Int`). The mutex field is omitted; see the module docstring. -/
structure withLoader (Ctx Arg E T : Type) : Type where
  value : T
  args : List Arg
  loader : LazyFunc Ctx Arg E T
  loaded : Bool
  withTTL : Bool
  ttl : Int
  lastLoad : Option Int

/-- Result of one `Value` call: the updated cell state, the `(T, error)`
pair returned to the caller, and a trace of the loader invocation performed
during the call (`none` when the call was a cache hit). -/
structure ValueOut (Ctx Arg E T : Type) : Type where
  state : withLoader Ctx Arg E T
  ret : T × Option E
  invoked : Option (Ctx × List Arg)

variable {Ctx Arg E T : Type}

/-- Model of `newWithLoader`: a fresh cell with `loaded = false` and no
`lastLoad` timestamp. Go zero-initializes the `value` field; the zero value
of `T` is passed explicitly as `dflt`. -/
def newWithLoader (loader : LazyFunc Ctx Arg E T) (ttlOn : Bool) (ttl : Int)
    (args : List Arg) (dflt : T) : withLoader Ctx Arg E T :=
  { value := dflt
    args := args
    loader := loader
    loaded := false
    withTTL := ttlOn
    ttl := ttl
    lastLoad := none }

/-- Model of `newWithLoaderPreloaded`, called at time `now`: the struct
literal in the Go source sets `value`, `args`, `loader`, `withTTL`, `ttl` and
`lastLoad := &time.Now()`, but does NOT set the `loaded` field, which is
therefore zero-initialized to `false`. The embedding reproduces this
faithfully. -/
def newWithLoaderPreloaded (now : Int) (value : T) (loader : LazyFunc Ctx Arg E T)
    (ttlOn : Bool) (ttl : Int) (args : List Arg) : withLoader Ctx Arg E T :=
  { value := value
    args := args
    loader := loader
    loaded := false
    withTTL := ttlOn
    ttl := ttl
    lastLoad := some now }

/-- Model of `needsRefresh := l.withTTL && l.lastLoad != nil &&
time.Since(*l.lastLoad) > l.ttl` at current time `now`. -/
def withLoader.needsRefresh (l : withLoader Ctx Arg E T) (now : Int) : Bool :=
  l.withTTL && (match l.lastLoad with
    | none => false
    | some t => decide (now - t > l.ttl))

/-- The condition `!l.loaded || needsRefresh` under which `Value` invokes
the loader. -/
def withLoader.willLoad (l : withLoader Ctx Arg E T) (now : Int) : Bool :=
  !l.loaded || l.needsRefresh now

/-- Model of `withLoader.Value(ctxs ...context.Context)`, executed atomically
under the cell's lock at time `now`. `bg` models `context.Background()`;
`ctxs` is the variadic context list. On a refresh the loader runs on the
first supplied context (or `bg`), the result is stored in `value`,
`loaded` becomes `err == nil`, and `lastLoad` is set to `now`
unconditionally. Otherwise the cached value is returned with a nil error. -/
def withLoader.Value (l : withLoader Ctx Arg E T) (now : Int) (bg : Ctx)
    (ctxs : List Ctx) : ValueOut Ctx Arg E T :=
  if !l.loaded || l.needsRefresh now then
    let ctx := match ctxs with
      | c :: _ => c
      | [] => bg
    let r := l.loader ctx l.args
    { state := { l with value := r.1, loaded := r.2.isNone, lastLoad := some now }
      ret := (r.1, r.2)
      invoked := some (ctx, l.args) }
  else
    { state := l
      ret := (l.value, none)
      invoked := none }

/-- Model of `withLoader.Clear`: sets `loaded := false` and
`lastLoad := nil`. -/
def withLoader.Clear (l : withLoader Ctx Arg E T) : withLoader Ctx Arg E T :=
  { l with loaded := false, lastLoad := none }

/-- Model of the public constructor `WithLoader`: no TTL, zero duration. -/
def WithLoader (loader : LazyFunc Ctx Arg E T) (args : List Arg) (dflt : T) :
    withLoader Ctx Arg E T :=
  newWithLoader loader false 0 args dflt

/-- Model of the public constructor `WithLoaderTTL`: TTL enabled. -/
def WithLoaderTTL (loader : LazyFunc Ctx Arg E T) (ttl : Int) (args : List Arg)
    (dflt : T) : withLoader Ctx Arg E T :=
  newWithLoader loader true ttl args dflt

/-- Model of the public constructor `Preloaded`, called at time `now`. -/
def Preloaded (now : Int) (value : T) (loader : LazyFunc Ctx Arg E T)
    (args : List Arg) : withLoader Ctx Arg E T :=
  newWithLoaderPreloaded now value loader false 0 args

/-- Model of the public constructor `PreloadedTTL`, called at time `now`. -/
def PreloadedTTL (now : Int) (value : T) (loader : LazyFunc Ctx Arg E T)
    (ttl : Int) (args : List Arg) : withLoader Ctx Arg E T :=
  newWithLoaderPreloaded now value loader true ttl args

/-- Run a sequence of `Value` calls on a cell, one per element of `calls`;
each element gives the call's wall-clock time and its variadic context list.
Returns the final state, the list of `(value, error)` results in order, and
the total number of loader invocations performed. Because the cell's mutex
serializes concurrent callers, this sequential run models any concurrent
set of `Value` callers. -/
def runValues (l : withLoader Ctx Arg E T) (bg : Ctx) :
    List (Int × List Ctx) → withLoader Ctx Arg E T × List (T × Option E) × Nat
  | [] => (l, [], 0)
  | (now, ctxs) :: rest =>
    let out := l.Value now bg ctxs
    let (l', rs, n) := runValues out.state bg rest
    (l', out.ret :: rs, (if out.invoked.isSome then 1 else 0) + n)

/-- Model of the struct `static[T]` in `static.go`. -/
structure static (T : Type) : Type where
  value : T

/-- Model of `static.Value`: always returns the fixed value with a nil
error; the contexts are ignored and no loader exists to invoke. -/
def static.Value (l : static T) (ctxs : List Ctx) : T × Option E :=
  (l.value, none)

/-- Model of `static.Clear`: a no-op. -/
def static.Clear (l : static T) : static T :=
  l

/-- Model of the public constructor `Static`. -/
def Static (value : T) : static T :=
  { value := value }

/-- One operation on a `static` cell: a `Value` call with its context list,
or a `Clear` call. -/
inductive StaticOp (Ctx : Type) : Type where
  | value (ctxs : List Ctx)
  | clear

/-- Run a sequence of operations on a `static` cell, returning the final
state and the list of results of the `Value` calls in order. -/
def static.run (l : static T) (E : Type) :
    List (StaticOp Ctx) → static T × List (T × Option E)
  | [] => (l, [])
  | StaticOp.value ctxs :: rest =>
    let r := static.Value (E := E) l ctxs
    let (l', rs) := static.run l E rest
    (l', r :: rs)
  | StaticOp.clear :: rest => static.run l.Clear E rest

/-- A concrete loader used by closed evidence and witness theorems: ignores
its context and arguments and returns `(2, nil)`. -/
def ldrTwo : LazyFunc Nat Nat Nat Nat :=
  fun _ _ => (2, none)

/-- A concrete failing loader: ignores its inputs and returns value `0`
with error `7`. -/
def ldrFail : LazyFunc Nat Nat Nat Nat :=
  fun _ _ => (0, some 7)

/-- A concrete loaded TTL cell (ttl 4, last load at time 2) used by witness
theorems. -/
def cellTTL4 : withLoader Nat Nat Nat Nat :=
  { value := 5, args := [], loader := ldrTwo, loaded := true,
    withTTL := true, ttl := 4, lastLoad := some 2 }

/-! Helper lemmas shared by several claim theorems. -/

/-- When `loaded = true` and the refresh condition is false, `Value` takes
the cache-hit branch: state unchanged, cached value returned, no
invocation. -/
theorem Value_cache_hit (l : withLoader Ctx Arg E T) (now : Int) (bg : Ctx)
    (ctxs : List Ctx) (hld : l.loaded = true) (hnr : l.needsRefresh now = false) :
    l.Value now bg ctxs = { state := l, ret := (l.value, none), invoked := none } := by
  unfold withLoader.Value
  rw [hld, hnr]
  simp

/-- When the load condition holds, `Value` takes the refresh branch: the
loader runs on the first supplied context (or the background context) with
the cell's argument list, and the outcome is recorded. -/
theorem Value_load (l : withLoader Ctx Arg E T) (now : Int) (bg : Ctx)
    (ctxs : List Ctx) (hwl : l.willLoad now = true) :
    l.Value now bg ctxs =
      { state := { l with
                   value := (l.loader (ctxs.headD bg) l.args).1
                   loaded := (l.loader (ctxs.headD bg) l.args).2.isNone
                   lastLoad := some now }
        ret := l.loader (ctxs.headD bg) l.args
        invoked := some (ctxs.headD bg, l.args) } := by
  unfold withLoader.willLoad at hwl
  unfold withLoader.Value
  rw [hwl]
  cases ctxs <;> simp [List.headD]

/-- A `Value` call invokes the loader exactly when the load condition
`!loaded || needsRefresh` holds. -/
theorem Value_invoked_isSome (l : withLoader Ctx Arg E T) (now : Int) (bg : Ctx)
    (ctxs : List Ctx) :
    (l.Value now bg ctxs).invoked.isSome = l.willLoad now := by
  unfold withLoader.Value withLoader.willLoad
  by_cases h : (!l.loaded || l.needsRefresh now) = true
  · simp [h]
  · simp only [Bool.not_eq_true] at h
    simp [h]

/-- Propositional reading of the load condition. -/
theorem willLoad_iff (l : withLoader Ctx Arg E T) (now : Int) :
    l.willLoad now = true ↔
      (l.loaded = false ∨
        (l.withTTL = true ∧ ∃ t, l.lastLoad = some t ∧ l.ttl < now - t)) := by
  unfold withLoader.willLoad withLoader.needsRefresh
  cases hll : l.lastLoad <;> cases hld : l.loaded <;> cases httl : l.withTTL <;>
    simp [hll, decide_eq_true_iff]

/-- On a cell with `loaded = true` and TTL disabled, every `Value` call in a
run is a cache hit: the state never changes, every result is the cached
value with a nil error, and the loader is never invoked. -/
theorem runValues_loaded_noTTL (l : withLoader Ctx Arg E T) (bg : Ctx)
    (calls : List (Int × List Ctx)) (hld : l.loaded = true)
    (httl : l.withTTL = false) :
    runValues l bg calls = (l, calls.map (fun _ => (l.value, none)), 0) := by
  induction calls with
  | nil => rfl
  | cons c rest ih =>
    obtain ⟨now, ctxs⟩ := c
    have hnr : l.needsRefresh now = false := by
      unfold withLoader.needsRefresh
      rw [httl]
      rfl
    simp [runValues, Value_cache_hit l now bg ctxs hld hnr, ih]

/-! Claim theorems. -/

/-- C1: the spec says a cell built by the preloaded variant has
`loaded = true` and its first `Value()` returns the preload value without
invoking the loader. The Go struct literal in `newWithLoaderPreloaded`
omits the `loaded` field, so `loaded` is zero-initialized to `false`; the
first `Value()` call therefore invokes the loader and returns the loader's
value instead of the preload value. This theorem exhibits the divergence on
the concrete cell `Preloaded(1, ldrTwo)` built at time 0, with `ldrTwo`
returning `(2, nil)`: the claim predicts result `(1, nil)` with no
invocation, the code yields `(2, nil)` with one invocation. -/
theorem preloaded_first_value_invokes_loader :
    (Preloaded 0 1 ldrTwo []).loaded = false ∧
    ((Preloaded 0 1 ldrTwo []).Value 0 0 []).invoked = some (0, []) ∧
    ((Preloaded 0 1 ldrTwo []).Value 0 0 []).ret = (2, none) :=
  ⟨rfl, rfl, rfl⟩

/-- C5: `Clear()` unconditionally sets `loaded = false` and erases the
last-load timestamp, for every cell state (any TTL configuration, any prior
success or failure); it is idempotent; and the next `Value()` call after a
`Clear()` invokes the loader (exactly one invocation happens in that call,
witnessed by the single `invoked` trace entry). -/
theorem clear_resets_and_forces_reload (l : withLoader Ctx Arg E T) :
    l.Clear.loaded = false ∧ l.Clear.lastLoad = none ∧
    l.Clear.Clear = l.Clear ∧
    ∀ (now : Int) (bg : Ctx) (ctxs : List Ctx),
      (l.Clear.Value now bg ctxs).invoked.isSome = true := by
  refine ⟨rfl, rfl, rfl, fun now bg ctxs => ?_⟩
  unfold withLoader.Value
  simp [withLoader.Clear]

/-- C9: a `Value()` call on a loaded cell for which the refresh condition
fails (TTL disabled, timestamp absent, or elapsed time not exceeding the
TTL) is a pure cache hit: the entire cell state is unchanged (all fields,
including `value`, `loaded`, `lastLoad`, `withTTL`, `ttl`, `args` and the
loader), the loader is not invoked, and the call returns the stored value
with a nil error. -/
theorem cache_hit_mutates_nothing (l : withLoader Ctx Arg E T) (now : Int)
    (bg : Ctx) (ctxs : List Ctx) (hld : l.loaded = true)
    (hnr : l.needsRefresh now = false) :
    l.Value now bg ctxs = { state := l, ret := (l.value, none), invoked := none } :=
  Value_cache_hit l now bg ctxs hld hnr

/-- Witness for C9: the loaded TTL cell `cellTTL4` (ttl 4, last load at 2)
checked exactly at its TTL boundary (time 6) is a cache hit that leaves the
state untouched. -/
theorem cache_hit_mutates_nothing_witness :
    cellTTL4.Value 6 0 [] =
      { state := cellTTL4, ret := (5, none), invoked := none } :=
  cache_hit_mutates_nothing cellTTL4 6 0 [] rfl (by decide)

/-- C7: the static (constant) variant built from `v` answers every
`Value()` call in any sequence of `Value()` and `Clear()` operations with
`(v, nil)`; `Clear()` never changes the subsequently returned values (the
state after the whole run is still `Static v`), and the variant holds no
loader at all, so no loader can be invoked. -/
theorem static_always_returns_value (v : T) (E : Type)
    (ops : List (StaticOp Ctx)) :
    static.run (Static v) E ops =
      (Static v, ops.filterMap (fun op => match op with
        | StaticOp.value _ => some (v, (none : Option E))
        | StaticOp.clear => none)) := by
  induction ops with
  | nil => rfl
  | cons op rest ih =>
    cases op with
    | value ctxs =>
      simp only [Static] at ih ⊢
      simp [static.run, static.Value, ih, List.filterMap]
    | clear => simp [static.run, static.Clear, ih, List.filterMap]

/-- C2: whenever a `Value()` call invokes the loader and the loader returns
`(v, e)` with a non-nil error `e`, the call returns exactly `(v, some e)`
with the error propagated unchanged; afterwards the cell holds `value = v`,
`loaded = false` and `lastLoad = now` (the timestamp is updated even on
failure), and any later `Value()` call invokes the loader again
unconditionally. -/
theorem failed_load_propagates_error (l : withLoader Ctx Arg E T)
    (now nxt : Int) (bg : Ctx) (ctxs ctxs' : List Ctx) (v : T) (e : E)
    (hwl : l.willLoad now = true)
    (herr : l.loader (ctxs.headD bg) l.args = (v, some e)) :
    (l.Value now bg ctxs).ret = (v, some e) ∧
    (l.Value now bg ctxs).state.value = v ∧
    (l.Value now bg ctxs).state.loaded = false ∧
    (l.Value now bg ctxs).state.lastLoad = some now ∧
    ((l.Value now bg ctxs).state.Value nxt bg ctxs').invoked.isSome = true := by
  rw [Value_load l now bg ctxs hwl, herr]
  refine ⟨rfl, rfl, rfl, rfl, ?_⟩
  rw [Value_invoked_isSome]
  unfold withLoader.willLoad
  simp

/-- Witness for C2: a fresh cell with the failing loader `ldrFail` returns
its error `(0, some 7)`, records the failure state, and reloads on the next
call. -/
theorem failed_load_propagates_error_witness :
    ((WithLoader ldrFail [] 0).Value 0 0 []).ret = (0, some 7) ∧
    ((WithLoader ldrFail [] 0).Value 0 0 []).state.value = 0 ∧
    ((WithLoader ldrFail [] 0).Value 0 0 []).state.loaded = false ∧
    ((WithLoader ldrFail [] 0).Value 0 0 []).state.lastLoad = some 0 ∧
    (((WithLoader ldrFail [] 0).Value 0 0 []).state.Value 1 0 []).invoked.isSome = true :=
  failed_load_propagates_error (WithLoader ldrFail [] 0) 0 1 0 [] [] 0 7 rfl rfl

/-- C3: a `Value()` call at time `now` invokes the loader exactly when
`loaded = false`, or TTL is enabled and a last-load timestamp is present
and strictly more than `ttl` has elapsed since it; in particular, a call on
a loaded cell at exactly `ttl` elapsed is a cache hit returning the cached
value with a nil error. -/
theorem loader_invoked_iff (l : withLoader Ctx Arg E T) (now : Int) (bg : Ctx)
    (ctxs : List Ctx) :
    ((l.Value now bg ctxs).invoked.isSome = true ↔
      (l.loaded = false ∨
        (l.withTTL = true ∧ ∃ t, l.lastLoad = some t ∧ l.ttl < now - t))) ∧
    (∀ t : Int, l.loaded = true → l.lastLoad = some t → now - t = l.ttl →
      (l.Value now bg ctxs).invoked = none ∧
      (l.Value now bg ctxs).ret = (l.value, none)) := by
  constructor
  · rw [Value_invoked_isSome]
    exact willLoad_iff l now
  · intro t hld hll hbd
    have hnr : l.needsRefresh now = false := by
      unfold withLoader.needsRefresh
      rw [hll]
      have hlt : ¬ (now - t > l.ttl) := by omega
      simp [hlt]
    rw [Value_cache_hit l now bg ctxs hld hnr]
    exact ⟨rfl, rfl⟩

/-- Witness for C3: the loaded TTL cell `cellTTL4` (ttl 4, last load at 2)
queried at time 6, exactly `ttl` after the last load, does not invoke the
loader and returns the cached value. -/
theorem loader_invoked_iff_witness :
    (cellTTL4.Value 6 0 []).invoked = none ∧
    (cellTTL4.Value 6 0 []).ret = (5, none) :=
  (loader_invoked_iff cellTTL4 6 0 []).2 2 rfl rfl (by decide)

/-- C4: on a cell with TTL disabled, once a `Value()` call triggers a load
that succeeds with value `v`, that call returns `(v, nil)` and every
subsequent run of `Value()` calls (any number, at any times, with any
contexts) performs zero further loader invocations, returns `(v, nil)` each
time, and leaves the state untouched — until a `Clear()` intervenes. -/
theorem noTTL_cache_hits_after_success (l : withLoader Ctx Arg E T)
    (now : Int) (bg : Ctx) (ctxs : List Ctx) (calls : List (Int × List Ctx))
    (v : T) (httl : l.withTTL = false) (hwl : l.willLoad now = true)
    (hsucc : l.loader (ctxs.headD bg) l.args = (v, none)) :
    (l.Value now bg ctxs).ret = (v, none) ∧
    runValues (l.Value now bg ctxs).state bg calls =
      ((l.Value now bg ctxs).state, calls.map (fun _ => (v, none)), 0) := by
  rw [Value_load l now bg ctxs hwl, hsucc]
  refine ⟨rfl, ?_⟩
  exact runValues_loaded_noTTL _ bg calls rfl httl

/-- Witness for C4: a fresh non-TTL cell with loader `ldrTwo` loads `(2,
nil)` once; two later calls are cache hits returning `(2, nil)` with zero
invocations. -/
theorem noTTL_cache_hits_after_success_witness :
    ((WithLoader ldrTwo [] 0).Value 0 0 []).ret = (2, none) ∧
    runValues ((WithLoader ldrTwo [] 0).Value 0 0 []).state 0 [(1, []), (2, [])] =
      (((WithLoader ldrTwo [] 0).Value 0 0 []).state, [(2, none), (2, none)], 0) :=
  noTTL_cache_hits_after_success (WithLoader ldrTwo [] 0) 0 0 [] [(1, []), (2, [])]
    2 rfl rfl rfl

/-- C6: whenever a `Value()` call invokes the loader, the loader receives
the first supplied context if any (extra contexts are ignored without
error) and the default background context when none is supplied; and in
every invocation the loader receives the cell's construction-time argument
list, which the call leaves unchanged. -/
theorem loader_receives_ctx_and_args (l : withLoader Ctx Arg E T) (now : Int)
    (bg : Ctx) (ctxs : List Ctx) (hwl : l.willLoad now = true) :
    (l.Value now bg ctxs).invoked = some (ctxs.headD bg, l.args) ∧
    (ctxs = [] → (l.Value now bg ctxs).invoked = some (bg, l.args)) ∧
    (∀ (c : Ctx) (rest : List Ctx), ctxs = c :: rest →
      (l.Value now bg ctxs).invoked = some (c, l.args)) ∧
    (l.Value now bg ctxs).state.args = l.args := by
  rw [Value_load l now bg ctxs hwl]
  refine ⟨rfl, ?_, ?_, rfl⟩
  · intro h
    subst h
    rfl
  · intro c rest h
    subst h
    rfl

/-- Witness for C6: a fresh cell with argument list `[3]` called with the
two contexts `[8, 9]` passes context `8` (the first) and arguments `[3]` to
the loader. -/
theorem loader_receives_ctx_and_args_witness :
    ((WithLoader ldrTwo [3] 0).Value 0 0 [8, 9]).invoked = some (8, [3]) :=
  (loader_receives_ctx_and_args (WithLoader ldrTwo [3] 0) 0 0 [8, 9] rfl).2.2.1
    8 [9] rfl

/-- C8: the cell's single mutex serializes concurrent `Value()` callers and
`Clear()`, so a set of K concurrent callers on a fresh cell is modelled as
a sequential run of K `Value` calls; at most one loader invocation can be
in progress in a step because each step performs at most one invocation
(the single `invoked` slot). For every fresh non-TTL cell whose loader
succeeds with `v` on the first caller's context, a run of K ≥ 1 calls
performs exactly one loader invocation in total and every caller receives
the identical result `(v, nil)`. -/
theorem single_flight_serialized (loader : LazyFunc Ctx Arg E T)
    (args : List Arg) (dflt : T) (bg : Ctx) (v : T) (n1 : Int)
    (cx1 : List Ctx) (rest : List (Int × List Ctx))
    (hsucc : loader (cx1.headD bg) args = (v, none)) :
    (runValues (WithLoader loader args dflt) bg ((n1, cx1) :: rest)).2 =
      (((n1, cx1) :: rest).map (fun _ => (v, none)), 1) := by
  have hwl : (WithLoader loader args dflt).willLoad n1 = true := rfl
  have h1 := Value_load (WithLoader loader args dflt) n1 bg cx1 hwl
  simp only [runValues, h1]
  simp only [WithLoader, newWithLoader] at hsucc ⊢
  rw [hsucc]
  rw [runValues_loaded_noTTL _ bg rest rfl rfl]
  simp

/-- Witness for C8: three serialized callers on a fresh cell with loader
`ldrTwo` all receive `(2, nil)` and the loader runs exactly once. -/
theorem single_flight_serialized_witness :
    (runValues (WithLoader ldrTwo [] 0) 0 [(0, []), (1, []), (2, [])]).2 =
      ([(2, none), (2, none), (2, none)], 1) :=
  single_flight_serialized ldrTwo [] 0 0 2 0 [] [(1, []), (2, [])] rfl

/-- C10: a cell built with TTL enabled and `ttl = 0` does not behave as if
TTL were disabled: after a first `Value` call at time `t` (which records
`lastLoad = t`, whether or not the load succeeded), every `Value` call at
any strictly later time invokes the loader again. -/
theorem ttl_zero_still_expires (loader : LazyFunc Ctx Arg E T)
    (args : List Arg) (dflt : T) (bg : Ctx) (t now : Int)
    (ctxs ctxs' : List Ctx) (h : t < now) :
    (((WithLoaderTTL loader 0 args dflt).Value t bg ctxs).state.Value now bg
      ctxs').invoked.isSome = true := by
  have hwl : (WithLoaderTTL loader 0 args dflt).willLoad t = true := rfl
  rw [Value_load _ t bg ctxs hwl, Value_invoked_isSome]
  unfold withLoader.willLoad withLoader.needsRefresh
  have hlt : now - t > (0 : Int) := by omega
  simp [WithLoaderTTL, newWithLoader, hlt]

/-- Witness for C10: a TTL-0 cell loaded at time 0 reloads at time 1. -/
theorem ttl_zero_still_expires_witness :
    (((WithLoaderTTL ldrTwo 0 [] 0).Value 0 0 []).state.Value 1 0 []).invoked.isSome
      = true :=
  ttl_zero_still_expires ldrTwo [] 0 0 0 1 [] [] (by decide)

end Golazy
